import Mathlib

/-!
Verification of the `rss_reader` core (`src/rss_reader/core.py`) via a
shallow embedding.  Pure functions of the source become Lean functions;
the SQLite cache becomes an explicit `CacheState` record threaded through
the store operations; the HTTP client becomes a sum type of outcomes fed
to `fetch_feed_items`.  Machine-level behaviour of the Python standard
library (`str.strip`, `str.split`, `hashlib.sha1`, `html.parser`,
`xml.etree.ElementTree`) is modelled faithfully enough for every claim:
SHA-1 is implemented in full, strings use an explicit Python whitespace
predicate, and the HTML parser is a tag/character-reference tokenizer.
-/

namespace RssReader

/-! ## Python string primitives -/

/-- Characters Python's `str.split()` / `str.strip()` treat as whitespace
(ASCII whitespace plus NBSP; the full Unicode set is irrelevant here). -/
def pyIsSpace (c : Char) : Bool :=
  c = ' ' ∨ c = '\t' ∨ c = '\n' ∨ c = '\r' ∨ c = '\x0b' ∨ c = '\x0c' ∨ c = ' '

/-- Python `str.strip()`. -/
def pyStrip (s : String) : String :=
  ⟨(s.data.dropWhile pyIsSpace).reverse.dropWhile pyIsSpace |>.reverse⟩

/-- Helper for `pySplit`: split a character list at whitespace runs,
discarding empty fragments (Python `str.split()` with no argument). -/
def pySplitAux : List Char → List Char → List String
  | [], acc => if acc.isEmpty then [] else [⟨acc.reverse⟩]
  | c :: cs, acc =>
    if pyIsSpace c then
      if acc.isEmpty then pySplitAux cs [] else (⟨acc.reverse⟩ : String) :: pySplitAux cs []
    else pySplitAux cs (c :: acc)

/-- Python `str.split()` (no separator). -/
def pySplit (s : String) : List String := pySplitAux s.data []

/-- `" ".join(s.split())`: collapse whitespace runs to single spaces. -/
def wsCollapse (s : String) : String := String.intercalate " " (pySplit s)

/-- Python truthiness of an optional string (`if etag:`). -/
def optTruthy : Option String → Bool
  | none => false
  | some s => s ≠ ""

/-- Python `a or b` on optional strings. -/
def pyOrOpt (a b : Option String) : Option String := if optTruthy a then a else b

/-! ## SHA-1 (`hashlib.sha1(...).hexdigest()`)

Implemented from the SHA-1 specification over byte lists, with 32-bit
words represented as `Nat` reduced `% 2^32`. -/

def w32 : Nat := 2 ^ 32

def rotl32 (n x : Nat) : Nat := ((x <<< n) % w32) ||| (x >>> (32 - n))

/-- Encode a character as UTF-8 bytes (Python `str.encode("utf-8")`). -/
def utf8Char (c : Char) : List Nat :=
  let v := c.toNat
  if v < 0x80 then [v]
  else if v < 0x800 then [0xC0 ||| (v >>> 6), 0x80 ||| (v &&& 0x3F)]
  else if v < 0x10000 then
    [0xE0 ||| (v >>> 12), 0x80 ||| ((v >>> 6) &&& 0x3F), 0x80 ||| (v &&& 0x3F)]
  else
    [0xF0 ||| (v >>> 18), 0x80 ||| ((v >>> 12) &&& 0x3F),
     0x80 ||| ((v >>> 6) &&& 0x3F), 0x80 ||| (v &&& 0x3F)]

def utf8Bytes (s : String) : List Nat := s.data.flatMap utf8Char

/-- SHA-1 message padding: append `0x80`, zero bytes, and the 64-bit
big-endian bit length, reaching a multiple of 64 bytes. -/
def sha1Pad (msg : List Nat) : List Nat :=
  let len := msg.length
  let bitLen := len * 8
  let zeros := (64 - ((len + 9) % 64)) % 64
  msg ++ [0x80] ++ List.replicate zeros 0 ++
    [bitLen >>> 56 % 256, bitLen >>> 48 % 256, bitLen >>> 40 % 256, bitLen >>> 32 % 256,
     bitLen >>> 24 % 256, bitLen >>> 16 % 256, bitLen >>> 8 % 256, bitLen % 256]

/-- Split a byte list into big-endian 32-bit words (4 bytes each). -/
def bytesToWords : List Nat → List Nat
  | b0 :: b1 :: b2 :: b3 :: rest =>
    (((b0 * 256 + b1) * 256 + b2) * 256 + b3) :: bytesToWords rest
  | _ => []

/-- Extend 16 schedule words to 80, keeping the list reversed (head is
the newest word) so the four taps are positional lookups. -/
def sha1Extend (rws : List Nat) : Nat → List Nat
  | 0 => rws
  | k + 1 =>
    let w := rotl32 1 (rws.getD 2 0 ^^^ rws.getD 7 0 ^^^ rws.getD 13 0 ^^^ rws.getD 15 0)
    sha1Extend (w :: rws) k

/-- One SHA-1 round. -/
def sha1Round (st : Nat × Nat × Nat × Nat × Nat) (iw : Nat × Nat) :
    Nat × Nat × Nat × Nat × Nat :=
  let (a, b, c, d, e) := st
  let (i, wrd) := iw
  let f :=
    if i < 20 then (b &&& c) ||| (((w32 - 1) ^^^ b) &&& d)
    else if i < 40 then b ^^^ c ^^^ d
    else if i < 60 then (b &&& c) ||| (b &&& d) ||| (c &&& d)
    else b ^^^ c ^^^ d
  let k :=
    if i < 20 then 0x5A827999
    else if i < 40 then 0x6ED9EBA1
    else if i < 60 then 0x8F1BBCDC
    else 0xCA62C1D6
  let tmp := (rotl32 5 a + f + e + k + wrd) % w32
  (tmp, a, rotl32 30 b, c, d)

/-- Compress one 64-byte chunk into the running hash state. -/
def sha1Chunk (h : Nat × Nat × Nat × Nat × Nat) (chunk : List Nat) :
    Nat × Nat × Nat × Nat × Nat :=
  let ws16 := bytesToWords chunk
  let ws := (sha1Extend ws16.reverse 64).reverse
  let (h0, h1, h2, h3, h4) := h
  let (a, b, c, d, e) := ws.enum.foldl sha1Round h
  ((h0 + a) % w32, (h1 + b) % w32, (h2 + c) % w32, (h3 + d) % w32, (h4 + e) % w32)

/-- Feed padded bytes through the compressor 64 bytes at a time.  The
buffer accumulates (reversed) until it holds a full chunk. -/
def sha1Feed (acc : (Nat × Nat × Nat × Nat × Nat) × List Nat) (b : Nat) :
    (Nat × Nat × Nat × Nat × Nat) × List Nat :=
  let (h, buf) := acc
  let buf := b :: buf
  if buf.length = 64 then (sha1Chunk h buf.reverse, []) else (h, buf)

def sha1Init : Nat × Nat × Nat × Nat × Nat :=
  (0x67452301, 0xEFCDAB89, 0x98BADCFE, 0x10325476, 0xC3D2E1F0)

/-- Big-endian bytes of a 32-bit word. -/
def wordBytes (w : Nat) : List Nat :=
  [w >>> 24 % 256, w >>> 16 % 256, w >>> 8 % 256, w % 256]

/-- The 20-byte SHA-1 digest of a byte string. -/
def sha1Digest (msg : List Nat) : List Nat :=
  let (h, _) := (sha1Pad msg).foldl sha1Feed (sha1Init, [])
  let (h0, h1, h2, h3, h4) := h
  wordBytes h0 ++ wordBytes h1 ++ wordBytes h2 ++ wordBytes h3 ++ wordBytes h4

def hexDigit (n : Nat) : Char := "0123456789abcdef".data.getD n 'x'

def bytesToHex (bs : List Nat) : List Char :=
  bs.flatMap fun b => [hexDigit (b / 16 % 16), hexDigit (b % 16)]

/-- `hashlib.sha1(s.encode("utf-8")).hexdigest()`. -/
def sha1Hex (s : String) : String := ⟨bytesToHex (sha1Digest (utf8Bytes s))⟩

/-! ## Data model (`core.py` dataclasses) -/

structure FeedConfig where
  id : String
  title : String
  url : String
  enabled : Bool
  tags : List String
  deriving Repr, DecidableEq

structure FeedItem where
  feed_id : String
  feed_title : String
  title : String
  link : String
  published : String
  deriving Repr, DecidableEq

/-- Python string slice `s[:n]`. -/
def strTake (s : String) (n : Nat) : String := ⟨s.data.take n⟩

/-- Lowercase hexadecimal digits (the alphabet of `hexdigest()`). -/
def isHexChar (c : Char) : Bool := c ∈ "0123456789abcdef".data

/-- `derive_feed_id`: first 12 hex characters of the SHA-1 of the URL. -/
def derive_feed_id (url : String) : String := strTake (sha1Hex url) 12

structure ParsedEntry where
  title : String
  link : String
  published : String
  entry_id : String
  deriving Repr, DecidableEq

/-! ## HTML title stripping (`_HTMLTextExtractor` / `_strip_html`)

`html.parser.HTMLParser` (standard library, `convert_charrefs=True`) is
modelled as a tokenizer: text runs between tags become the data chunks
fed to `handle_data`, with character references decoded inline; tags are
dropped.  An unterminated tag at end of input is emitted as data, as
CPython does on `close()`. -/

/-- Named character references recognised by the model (the ones relevant
to feed titles); `convert_charrefs` leaves unknown references as text. -/
def charref (name : String) : Option String :=
  if name = "nbsp" then some " "
  else if name = "amp" then some "&"
  else if name = "lt" then some "<"
  else if name = "gt" then some ">"
  else if name = "quot" then some "\""
  else if name = "apos" then some "'"
  else none

/-- Decimal digits to a number (for numeric character references). -/
def digitsToNat (ds : List Char) : Nat :=
  ds.foldl (fun a c => a * 10 + (c.toNat - 48)) 0

/-- Scan a character reference after `&`: returns the decoded text and
how many characters of the input it consumed (name plus `;`), or `none`
when it is not a well-formed reference. -/
def scanCharref (cs : List Char) : Option (String × Nat) :=
  let name := cs.takeWhile fun c => c.isAlphanum ∨ c = '#'
  if cs.getD name.length 'x' = ';' then
    match charref ⟨name⟩ with
    | some t => some (t, name.length + 1)
    | none =>
      match name with
      | '#' :: ds =>
        if ds ≠ [] ∧ ds.all Char.isDigit then
          some (⟨[Char.ofNat (digitsToNat ds % 1114112)]⟩, name.length + 1)
        else none
      | _ => none
  else none

/-- Tokenize HTML into the data chunks `handle_data` receives: `flush`
accumulates the current text run (reversed); tags are dropped; an
unterminated `<` at end of input is emitted as data.  The fuel argument
only forces structural recursion: every step consumes at least one
input character, so `fuel = input length` never runs out. -/
def htmlDataChunksF : Nat → List Char → List Char → List String
  | _, [], flush => if flush.isEmpty then [] else [⟨flush.reverse⟩]
  | 0, cs, flush => [⟨flush.reverse ++ cs⟩]
  | fuel + 1, '<' :: cs, flush =>
    let emitted := if flush.isEmpty then [] else [(⟨flush.reverse⟩ : String)]
    let k := (cs.takeWhile (· ≠ '>')).length
    if k < cs.length then emitted ++ htmlDataChunksF fuel (cs.drop (k + 1)) []
    else emitted ++ ["<"] ++ htmlDataChunksF fuel cs []
  | fuel + 1, '&' :: cs, flush =>
    match scanCharref cs with
    | some (t, n) => htmlDataChunksF fuel (cs.drop n) (t.data.reverse ++ flush)
    | none => htmlDataChunksF fuel cs ('&' :: flush)
  | fuel + 1, c :: cs, flush => htmlDataChunksF fuel cs (c :: flush)

def htmlDataChunks (cs : List Char) : List String := htmlDataChunksF cs.length cs []

/-- `_HTMLTextExtractor.get_text()` applied to the collected parts. -/
def extractorText (parts : List String) : String :=
  pyStrip (String.intercalate " "
    ((parts.map pyStrip).filter fun p => p ≠ ""))

/-- `_strip_html`. -/
def strip_html (value : String) : String :=
  let v := pyStrip value
  if v = "" then ""
  else if ¬ v.data.contains '<' ∧ ¬ v.data.contains '>' then wsCollapse v
  else wsCollapse (extractorText (htmlDataChunks v.data))

/-! ## Feed XML parsing (`parse_feed_xml`)

`xml.etree.ElementTree` is modelled by `XmlElem`; `ET.fromstring` (the
only fallible step, raising `ParseError` on malformed text) is modelled
at the fetch layer as an `Except` outcome for the response body. -/

structure XmlElem where
  tag : String
  attrib : List (String × String)
  text : Option String
  children : List XmlElem
  deriving Repr

/-- `_local_name`: strip a `{namespace}` prefix. -/
def local_name (tag : String) : String :=
  if tag.startsWith "\x7b" then String.intercalate "\x7d" (tag.splitOn "\x7d").tail
  else tag

def attribGet (attrib : List (String × String)) (k : String) : Option String :=
  (attrib.find? fun p => p.1 = k).map (·.2)

/-- `_find_child`. -/
def find_child (e : XmlElem) (name : String) : Option XmlElem :=
  e.children.find? fun c => local_name c.tag = name

/-- `_find_children`. -/
def find_children (e : XmlElem) (name : String) : List XmlElem :=
  e.children.filter fun c => local_name c.tag = name

/-- `_text_of_child`. -/
def text_of_child (e : XmlElem) (name : String) : String :=
  match find_child e name with
  | none => ""
  | some c => pyStrip (c.text.getD "")

/-- `_atom_entry_link`. -/
def atom_entry_link (entry : XmlElem) : String :=
  let links := find_children entry "link"
  let preferred := links.find? fun l =>
    pyStrip ((attribGet l.attrib "href").getD "") ≠ "" ∧
      (pyStrip ((attribGet l.attrib "rel").getD "") = "alternate" ∨
       pyStrip ((attribGet l.attrib "rel").getD "") = "")
  match preferred with
  | some l => pyStrip ((attribGet l.attrib "href").getD "")
  | none =>
    match links.find? (fun l => pyStrip ((attribGet l.attrib "href").getD "") ≠ "") with
    | some l => pyStrip ((attribGet l.attrib "href").getD "")
    | none => ""

/-- `root.iter()`: the element and all descendants in document order. -/
def iterAll (e : XmlElem) : List XmlElem :=
  e :: (e.children.attach.flatMap fun c => iterAll c.1)
decreasing_by
  have := List.sizeOf_lt_of_mem c.2
  cases e
  simp_all
  omega

/-- Python `a or b` on strings. -/
def pyOrStr (a b : String) : String := if a ≠ "" then a else b

/-- Build one `ParsedEntry` from an `item`/`entry` element
(`parse_feed_xml`'s loop body). -/
def parseEntryElem (e : XmlElem) : ParsedEntry :=
  if local_name e.tag = "entry" then
    { title := pyOrStr (strip_html (text_of_child e "title")) "(no title)"
      link := atom_entry_link e
      published := pyOrStr (text_of_child e "published") (text_of_child e "updated")
      entry_id := text_of_child e "id" }
  else
    { title := pyOrStr (strip_html (text_of_child e "title")) "(no title)"
      link := text_of_child e "link"
      published := text_of_child e "pubDate"
      entry_id := text_of_child e "guid" }

/-- `parse_feed_xml` applied to an already-parsed XML tree. -/
def parse_feed_xml (root : XmlElem) : List ParsedEntry :=
  let root_name := local_name root.tag
  let entries :=
    if root_name = "rss" then
      match find_child root "channel" with
      | some channel => find_children channel "item"
      | none => []
    else if root_name = "feed" then
      find_children root "entry"
    else
      (iterAll root).filter fun e =>
        local_name e.tag = "item" ∨ local_name e.tag = "entry"
  entries.map parseEntryElem

/-! ## Item identity (`entry_item_id`)

The source first handles `ParsedEntry` values directly (truthiness of
each string field); the duck-typed fallback for foreign objects is dead
code for every caller in the repository. -/

def entry_item_id (e : ParsedEntry) : String :=
  if e.entry_id ≠ "" then e.entry_id
  else if e.link ≠ "" then e.link
  else sha1Hex (e.title ++ "\n" ++ e.published)

/-! ## Configuration parsing (`parse_feed_toml`)

The TOML document (the `dict[str, Any]` the source receives from
`toml.load`) is modelled by a dynamic Python value `PyVal`; the per-entry
`try`/`except` becomes an `Except` computation whose errors are skipped. -/

inductive PyVal where
  | none
  | bool (b : Bool)
  | int (n : Int)
  | str (s : String)
  | list (xs : List PyVal)
  | dict (kvs : List (String × PyVal))
  deriving Repr

/-- Python truthiness. -/
def pyTruthy : PyVal → Bool
  | .none => false
  | .bool b => b
  | .int n => n ≠ 0
  | .str s => s ≠ ""
  | .list xs => ¬ xs.isEmpty
  | .dict kvs => ¬ kvs.isEmpty

/-- Python `a or b`. -/
def pyOr (a b : PyVal) : PyVal := if pyTruthy a then a else b

mutual

/-- Python `str(v)` (repr of the cases a TOML document can contain). -/
def pyStr : PyVal → String
  | .none => "None"
  | .bool b => if b then "True" else "False"
  | .int n => toString n
  | .str s => s
  | .list xs => "[" ++ String.intercalate ", " (pyReprList xs) ++ "]"
  | .dict kvs => "\x7b" ++ String.intercalate ", " (pyReprDict kvs) ++ "\x7d"

/-- Python `repr(v)`. -/
def pyRepr : PyVal → String
  | .str s => "'" ++ s ++ "'"
  | v => pyStr v

def pyReprList : List PyVal → List String
  | [] => []
  | v :: vs => pyRepr v :: pyReprList vs

def pyReprDict : List (String × PyVal) → List String
  | [] => []
  | (k, v) :: kvs => ("'" ++ k ++ "': " ++ pyRepr v) :: pyReprDict kvs

end

/-- Python `f[k]`: raises (`.error`) unless `f` is a dict holding `k`. -/
def pySubscript (f : PyVal) (k : String) : Except Unit PyVal :=
  match f with
  | .dict kvs =>
    match kvs.find? fun p => p.1 = k with
    | some p => .ok p.2
    | none => .error ()
  | _ => .error ()

/-- Python `f.get(k, default)`: raises unless `f` is a dict. -/
def pyGet (f : PyVal) (k : String) (dflt : PyVal) : Except Unit PyVal :=
  match f with
  | .dict kvs =>
    match kvs.find? fun p => p.1 = k with
    | some p => .ok p.2
    | none => .ok dflt
  | _ => .error ()

/-- Python iteration `for x in v`: lists yield elements, strings yield
characters, dicts yield keys; other values raise. -/
def pyIter : PyVal → Except Unit (List PyVal)
  | .list xs => .ok xs
  | .str s => .ok (s.data.map fun c => .str ⟨[c]⟩)
  | .dict kvs => .ok (kvs.map fun p => .str p.1)
  | _ => .error ()

/-- The body of `parse_feed_toml`'s `try` block for one entry:
`.ok none` is the silent `continue` on a blank `url`, `.error` is any
raised exception (caught and skipped by the loop). -/
def extract_feed (f : PyVal) : Except Unit (Option FeedConfig) := do
  let urlV ← pySubscript f "url"
  let url := pyStrip (pyStr urlV)
  if url = "" then
    return Option.none
  let enabled := pyTruthy (← pyGet f "enabled" (.bool true))
  let tags0 ← pyGet f "tags"  (.list [])
  let tags := if let .none := tags0 then PyVal.list [] else tags0
  let feed_id := pyOrStr (pyStrip (pyStr (pyOr (← pyGet f "id" .none) (.str "")))) (derive_feed_id url)
  let title := pyOrStr (pyStrip (pyStr (pyOr (← pyGet f "title" .none) (.str "")))) feed_id
  let tagVals ← pyIter tags
  return some
    { id := feed_id, title := title, url := url, enabled := enabled
      tags := tagVals.map pyStr }

/-- `parse_feed_toml`'s loop over the feeds sequence (before the final
`enabled` filter): a raising entry is skipped, a blank-url entry is
skipped, a parsed entry is kept. -/
def parse_feed_list : List PyVal → List FeedConfig
  | [] => []
  | f :: fs =>
    match extract_feed f with
    | .ok (some cfg) => cfg :: parse_feed_list fs
    | _ => parse_feed_list fs

/-- `parse_feed_toml`: looks up `feeds` (default `[]`), iterates it (a
non-iterable raises out of the function), extracts each entry
best-effort, and keeps only `enabled` configs. -/
def parse_feed_toml (data : List (String × PyVal)) : Except Unit (List FeedConfig) := do
  let feeds_raw := ((data.find? fun p => p.1 = "feeds").map (·.2)).getD (.list [])
  let fs ← pyIter feeds_raw
  return (parse_feed_list fs).filter (·.enabled)

/-! ## Cache store (`CacheDB`, tables `feeds` and `items`)

The SQLite database is an explicit state: one row list per table, in
rowid (insertion) order.  Each `CacheDB` method becomes a function on
`CacheState`; `int(time.time())` becomes an explicit `now` argument. -/

structure FeedRow where
  feed_id : String
  url : String
  etag : Option String
  last_modified : Option String
  updated_at : Nat
  deriving Repr, DecidableEq

structure ItemRow where
  feed_id : String
  item_id : String
  title : String
  link : String
  published : String
  inserted_at : Nat
  deriving Repr, DecidableEq

structure CacheState where
  feeds : List FeedRow
  items : List ItemRow
  deriving Repr, DecidableEq

/-- `CacheDB.get_feed_meta`. -/
def get_feed_meta (st : CacheState) (feed_id : String) :
    Option String × Option String :=
  match st.feeds.find? fun r => r.feed_id = feed_id with
  | Option.none => (Option.none, Option.none)
  | some r => (r.etag, r.last_modified)

/-- `CacheDB.upsert_feed_meta`: insert-or-replace on the `feed_id` key,
refreshing `updated_at`. -/
def upsert_feed_meta (st : CacheState) (feed_id url : String)
    (etag last_modified : Option String) (now : Nat) : CacheState :=
  let row : FeedRow :=
    { feed_id := feed_id, url := url, etag := etag
      last_modified := last_modified, updated_at := now }
  if st.feeds.any fun r => r.feed_id = feed_id then
    { st with feeds := st.feeds.map fun r => if r.feed_id = feed_id then row else r }
  else
    { st with feeds := st.feeds ++ [row] }

/-- Descending insertion-time order used by `read_items`'s
`ORDER BY inserted_at DESC`. -/
def itemGE (a b : ItemRow) : Prop := b.inserted_at ≤ a.inserted_at

instance : DecidableRel itemGE := fun _ _ => Nat.decLe _ _

instance : IsTotal ItemRow itemGE := ⟨fun a b => Nat.le_total b.inserted_at a.inserted_at⟩

instance : IsTrans ItemRow itemGE := ⟨fun _ _ _ h h' => Nat.le_trans h' h⟩

/-- The item rows `read_items` selects: the feed's rows, sorted by
`inserted_at` descending, capped at `limit`. -/
def read_item_rows (st : CacheState) (feed : FeedConfig) (limit : Nat) :
    List ItemRow :=
  (List.insertionSort itemGE (st.items.filter fun r => r.feed_id = feed.id)).take limit

/-- `CacheDB.read_items`. -/
def read_items (st : CacheState) (feed : FeedConfig) (limit : Nat) :
    List FeedItem :=
  (read_item_rows st feed limit).map fun r =>
    { feed_id := feed.id, feed_title := feed.title
      title := r.title, link := r.link, published := r.published }

/-- Does the items table hold a row with this `(feed_id, item_id)` key? -/
def hasItem (st : CacheState) (feed_id item_id : String) : Bool :=
  st.items.any fun r => r.feed_id = feed_id ∧ r.item_id = item_id

/-- The row one iteration of `CacheDB.upsert_items` tries to insert. -/
def entryRow (feed : FeedConfig) (e : ParsedEntry) (now : Nat) : ItemRow :=
  { feed_id := feed.id
    item_id := entry_item_id e
    title := pyOrStr e.title "(no title)"
    link := e.link
    published := e.published
    inserted_at := now }

/-- The loop of `CacheDB.upsert_items`: insert-or-skip each entry on the
`(feed_id, item_id)` key, counting the rows actually inserted. -/
def upsert_go (feed : FeedConfig) (now : Nat) :
    CacheState → Nat → List ParsedEntry → CacheState × Nat
  | st, acc, [] => (st, acc)
  | st, acc, e :: es =>
    if hasItem st feed.id (entry_item_id e) then
      upsert_go feed now st acc es
    else
      upsert_go feed now { st with items := st.items ++ [entryRow feed e now] } (acc + 1) es

/-- `CacheDB.upsert_items`: `int(time.time())` is captured once as `now`
before the loop. -/
def upsert_items (st : CacheState) (feed : FeedConfig) (entries : List ParsedEntry)
    (now : Nat) : CacheState × Nat :=
  upsert_go feed now st 0 entries

/-! ## Fetch-reconcile engine (`fetch_feed_items`)

The `httpx` round trip is modelled by an `HttpResult` outcome: either a
raised exception (connection error, timeout) or a response carrying the
status code, the headers, and the outcome of `ET.fromstring` on its body
text (`parse_feed_xml`'s only fallible step). -/

structure HttpResponse where
  status : Nat
  headers : List (String × String)
  body : Except String XmlElem

inductive HttpResult where
  | netError (msg : String)
  | ok (r : HttpResponse)

/-- ASCII lowercasing used for case-insensitive header names. -/
def strLower (s : String) : String := ⟨s.data.map Char.toLower⟩

/-- Case-insensitive response-header lookup (`httpx.Headers.get`). -/
def headerGet (headers : List (String × String)) (k : String) : Option String :=
  (headers.find? fun p => strLower p.1 = strLower k).map (·.2)

/-- The request headers `fetch_feed_items` builds before the GET:
`User-Agent` always, the conditional headers only for truthy stored
values. -/
def request_headers (etag last_modified : Option String) : List (String × String) :=
  [("User-Agent", "flet-rss-feed/0.1")] ++
    (if optTruthy etag then [("If-None-Match", etag.getD "")] else []) ++
    (if optTruthy last_modified then [("If-Modified-Since", last_modified.getD "")] else [])

/-- The headers the next fetch of `feed` sends, as a function of the
store state (`fetch_feed_items` lines 420-425). -/
def fetch_request_headers (st : CacheState) (feed : FeedConfig) :
    List (String × String) :=
  let (etag, last_modified) := get_feed_meta st feed.id
  request_headers etag last_modified

/-- `fetch_feed_items`: returns the post-call store state together with
the item list and status message the caller receives. -/
def fetch_feed_items (st : CacheState) (feed : FeedConfig) (result : HttpResult)
    (now : Nat) : CacheState × List FeedItem × String :=
  match result with
  | .netError e => (st, read_items st feed 100, "Network error, showing cached items: " ++ e)
  | .ok r =>
    if r.status = 304 then
      (st, read_items st feed 100, "Not modified (304), loaded from cache.")
    else if r.status < 200 ∨ 300 ≤ r.status then
      (st, read_items st feed 100, "HTTP " ++ toString r.status ++ ", showing cached items.")
    else
      match r.body with
      | .error e =>
        (st, read_items st feed 100, "Failed to parse feed XML, showing cached items: " ++ e)
      | .ok root =>
        let parsed_entries := parse_feed_xml root
        let (st1, inserted) := upsert_items st feed (parsed_entries.take 200) now
        let new_etag := pyOrOpt (headerGet r.headers "etag") (headerGet r.headers "ETag")
        let new_last_modified :=
          pyOrOpt (headerGet r.headers "last-modified") (headerGet r.headers "Last-Modified")
        let st2 := upsert_feed_meta st1 feed.id feed.url new_etag new_last_modified now
        (st2, read_items st2 feed 100, "Updated. New items: " ++ toString inserted ++ ".")

/-! ## Concrete fixtures used by witness theorems -/

def sampleFeed : FeedConfig :=
  { id := "f1", title := "Feed", url := "https://example.com/rss", enabled := true, tags := [] }

def entryGuid : ParsedEntry :=
  { title := "T", link := "https://l/1", published := "P", entry_id := "guid-1" }

def entryLinkOnly : ParsedEntry :=
  { title := "T2", link := "https://l/2", published := "P2", entry_id := "" }

def entryBare : ParsedEntry :=
  { title := "T3", link := "", published := "P3", entry_id := "" }

def emptyState : CacheState := { feeds := [], items := [] }

def stateWithMeta : CacheState :=
  { feeds := [{ feed_id := "f1", url := "https://example.com/rss", etag := some "abc"
                last_modified := some "Mon, 01 Jan 2024 00:00:00 GMT", updated_at := 3 }]
    items := [{ feed_id := "f1", item_id := "guid-1", title := "T", link := "https://l/1"
                published := "P", inserted_at := 3 }] }

def resp304 : HttpResponse := { status := 304, headers := [], body := .error "unused" }

def resp500 : HttpResponse := { status := 500, headers := [], body := .error "unused" }

def respMalformed : HttpResponse :=
  { status := 200, headers := [], body := .error "syntax error: line 1, column 0" }

def rssTree : XmlElem :=
  { tag := "rss", attrib := [], text := Option.none
    children := [
      { tag := "channel", attrib := [], text := Option.none
        children := [
          { tag := "item", attrib := [], text := Option.none
            children := [
              { tag := "title", attrib := [], text := some "Hello", children := [] },
              { tag := "link", attrib := [], text := some "https://x/1", children := [] },
              { tag := "guid", attrib := [], text := some "g-1", children := [] }] }] }] }

def respOk : HttpResponse :=
  { status := 200
    headers := [("ETag", "abc"), ("Last-Modified", "Tue, 02 Jan 2024 00:00:00 GMT")]
    body := .ok rssTree }

def validFeedTable (u : String) : PyVal := .dict [("url", .str u)]

def badFeedTable : PyVal := .dict [("title", .str "no url field")]

/-! # Theorems -/

/-! ## Helper lemmas: `upsert_items` -/

theorem upsert_go_spec (feed : FeedConfig) (now : Nat) (es : List ParsedEntry) :
    ∀ st acc, ∃ new : List ItemRow,
      (upsert_go feed now st acc es).1.items = st.items ++ new ∧
      (upsert_go feed now st acc es).1.feeds = st.feeds ∧
      (upsert_go feed now st acc es).2 = acc + new.length ∧
      ∀ r ∈ new, r.inserted_at = now := by
  induction es with
  | nil => exact fun st acc => ⟨[], by simp [upsert_go]⟩
  | cons e es ih =>
    intro st acc
    by_cases h : hasItem st feed.id (entry_item_id e)
    · obtain ⟨new, h1, h2, h3, h4⟩ := ih st acc
      exact ⟨new, by simp [upsert_go, h, h1], by simp [upsert_go, h, h2],
        by simp [upsert_go, h, h3], h4⟩
    · obtain ⟨new, h1, h2, h3, h4⟩ :=
        ih { st with items := st.items ++ [entryRow feed e now] } (acc + 1)
      refine ⟨entryRow feed e now :: new, ?_, ?_, ?_, ?_⟩
      · simp [upsert_go, h, h1]
      · simp [upsert_go, h, h2]
      · simp [upsert_go, h, h3]; omega
      · intro r hr
        rcases List.mem_cons.mp hr with h' | h'
        · rw [h']; rfl
        · exact h4 r h'

theorem hasItem_extend {st : CacheState} {fid iid : String} (new : List ItemRow)
    (h : hasItem st fid iid = true) :
    hasItem { st with items := st.items ++ new } fid iid = true := by
  simp only [hasItem, List.any_append, Bool.or_eq_true] at h ⊢
  exact Or.inl h

theorem hasItem_of_items_eq (st st' : CacheState) (fid iid : String)
    (h : st.items = st'.items) : hasItem st fid iid = hasItem st' fid iid := by
  simp [hasItem, h]

theorem upsert_go_covers (feed : FeedConfig) (now : Nat) (es : List ParsedEntry) :
    ∀ st acc e, e ∈ es →
      hasItem (upsert_go feed now st acc es).1 feed.id (entry_item_id e) = true := by
  induction es with
  | nil => intro _ _ _ h; cases h
  | cons e0 es ih =>
    intro st acc e he
    by_cases h : hasItem st feed.id (entry_item_id e0)
    · rcases List.mem_cons.mp he with h' | h'
      · obtain ⟨new, h1, _, _, _⟩ := upsert_go_spec feed now es st acc
        rw [show upsert_go feed now st acc (e0 :: es) = upsert_go feed now st acc es by
          simp [upsert_go, h]]
        rw [hasItem_of_items_eq _ { st with items := st.items ++ new } _ _ h1, h']
        exact hasItem_extend new h
      · rw [show upsert_go feed now st acc (e0 :: es) = upsert_go feed now st acc es by
          simp [upsert_go, h]]
        exact ih st acc e h'
    · have hstep : upsert_go feed now st acc (e0 :: es) =
          upsert_go feed now { st with items := st.items ++ [entryRow feed e0 now] } (acc + 1) es := by
        simp [upsert_go, h]
      rcases List.mem_cons.mp he with h' | h'
      · obtain ⟨new, h1, _, _, _⟩ :=
          upsert_go_spec feed now es { st with items := st.items ++ [entryRow feed e0 now] } (acc + 1)
        rw [hstep, hasItem_of_items_eq _ { st with items :=
          (st.items ++ [entryRow feed e0 now]) ++ new } _ _ (by simpa using h1), h']
        simp [hasItem, entryRow]
      · rw [hstep]
        exact ih { st with items := st.items ++ [entryRow feed e0 now] } (acc + 1) e h'

theorem upsert_go_noop (feed : FeedConfig) (now : Nat) (es : List ParsedEntry) :
    ∀ st acc, (∀ e ∈ es, hasItem st feed.id (entry_item_id e) = true) →
      upsert_go feed now st acc es = (st, acc) := by
  induction es with
  | nil => intro st acc _; rfl
  | cons e es ih =>
    intro st acc hall
    have he : hasItem st feed.id (entry_item_id e) = true := hall e (by simp)
    have := ih st acc fun e' he' => hall e' (by simp [he'])
    simp [upsert_go, he, this]

/-! ## C1: dedup item id precedence -/

/-- C1: `entry_item_id` follows the guid / link / content-hash
precedence: a non-empty feed-supplied id wins, else a non-empty link,
else the SHA-1 hex digest of `title + "\n" + published`.  Determinism
across repeated parses of byte-identical input is inherent: the id is a
pure function of the entry's fields. -/
theorem entry_item_id_precedence (e : ParsedEntry) :
    (e.entry_id ≠ "" → entry_item_id e = e.entry_id) ∧
    (e.entry_id = "" → e.link ≠ "" → entry_item_id e = e.link) ∧
    (e.entry_id = "" → e.link = "" →
      entry_item_id e = sha1Hex (e.title ++ "\n" ++ e.published)) := by
  refine ⟨fun h => ?_, fun h1 h2 => ?_, fun h1 h2 => ?_⟩
  · simp [entry_item_id, h]
  · simp [entry_item_id, h1, h2]
  · simp [entry_item_id, h1, h2]

/-- C1 witness: the three precedence branches at concrete entries. -/
theorem entry_item_id_precedence_witness :
    entry_item_id entryGuid = "guid-1" ∧
    entry_item_id entryLinkOnly = "https://l/2" ∧
    entry_item_id entryBare = sha1Hex "T3\nP3" :=
  ⟨(entry_item_id_precedence entryGuid).1 (by decide),
   (entry_item_id_precedence entryLinkOnly).2.1 rfl (by decide),
   (entry_item_id_precedence entryBare).2.2 rfl rfl⟩

/-! ## C2: idempotent, non-overwriting ingestion -/

/-- C2: re-running `upsert_items` with the identical entry sequence
inserts nothing — the second call returns count 0 and leaves the store
state (hence every persisted item's title/link/published) unchanged; a
first call only appends rows, never rewriting existing ones; and the
returned count equals the number of rows actually inserted (the growth
of the items table), not the number attempted. -/
theorem upsert_items_idempotent (st : CacheState) (feed : FeedConfig)
    (entries : List ParsedEntry) (now now' : Nat) :
    upsert_items (upsert_items st feed entries now).1 feed entries now' =
      ((upsert_items st feed entries now).1, 0) ∧
    (∃ new, (upsert_items st feed entries now).1.items = st.items ++ new) ∧
    (upsert_items st feed entries now).2 =
      (upsert_items st feed entries now).1.items.length - st.items.length := by
  obtain ⟨new, h1, _, h3, _⟩ := upsert_go_spec feed now entries st 0
  refine ⟨?_, ⟨new, h1⟩, ?_⟩
  · exact upsert_go_noop feed now' entries (upsert_items st feed entries now).1 0
      fun e he => upsert_go_covers feed now entries st 0 e he
  · simp [upsert_items, h3, h1]

/-! ## C9: one timestamp per ingestion batch -/

/-- C9: every row inserted by a single `upsert_items` call carries the
one `inserted_at` value captured (in whole seconds) at the start of the
call, so `inserted_at` does not distinguish the relative order of items
ingested in the same batch: any two rows of the batch have equal
timestamps. -/
theorem upsert_items_single_timestamp (st : CacheState) (feed : FeedConfig)
    (entries : List ParsedEntry) (now : Nat) :
    ∃ new, (upsert_items st feed entries now).1.items = st.items ++ new ∧
      (∀ r ∈ new, r.inserted_at = now) ∧
      ∀ r ∈ new, ∀ r' ∈ new, r.inserted_at = r'.inserted_at := by
  obtain ⟨new, h1, _, _, h4⟩ := upsert_go_spec feed now entries st 0
  exact ⟨new, h1, h4, fun r hr r' hr' => by rw [h4 r hr, h4 r' hr']⟩

/-! ## C6: deterministic descending read-back -/

/-- C6: `read_items` (every caller in the source uses the default limit
of 100) is the image of `read_item_rows` — the feed's rows sorted by
`inserted_at` descending and capped at `limit`.  The read-back order is
a pure function of the store state, hence deterministic, not arbitrary:
two reads of the same state give the same sequence by reflexivity, and
the embedding fixes one total order. -/
theorem read_items_ordered_capped (st : CacheState) (feed : FeedConfig) (limit : Nat) :
    read_items st feed limit = (read_item_rows st feed limit).map
      (fun r => { feed_id := feed.id, feed_title := feed.title, title := r.title
                  link := r.link, published := r.published }) ∧
    (read_item_rows st feed limit).Pairwise itemGE ∧
    (read_items st feed limit).length ≤ limit := by
  refine ⟨rfl, ?_, ?_⟩
  · exact ((List.sorted_insertionSort itemGE _).sublist (List.take_sublist _ _))
  · simp [read_items, read_item_rows]

/-! ## C3: fetch failures degrade to the cached view -/

/-- C3: `fetch_feed_items` never raises — on a network failure, a 304
response, any non-2xx status, or an XML parse failure of a 2xx body, it
leaves the store untouched (the post-call state is exactly the pre-call
state) and returns precisely the feed's currently cached items together
with that branch's descriptive status string. -/
theorem fetch_feed_items_degrades (st : CacheState) (feed : FeedConfig) (now : Nat) :
    (∀ msg, fetch_feed_items st feed (.netError msg) now =
      (st, read_items st feed 100, "Network error, showing cached items: " ++ msg)) ∧
    (∀ r : HttpResponse, r.status = 304 → fetch_feed_items st feed (.ok r) now =
      (st, read_items st feed 100, "Not modified (304), loaded from cache.")) ∧
    (∀ r : HttpResponse, r.status ≠ 304 → (r.status < 200 ∨ 300 ≤ r.status) →
      fetch_feed_items st feed (.ok r) now =
        (st, read_items st feed 100, "HTTP " ++ toString r.status ++ ", showing cached items.")) ∧
    (∀ (r : HttpResponse) (e : String), 200 ≤ r.status → r.status < 300 →
      r.body = .error e → fetch_feed_items st feed (.ok r) now =
        (st, read_items st feed 100,
          "Failed to parse feed XML, showing cached items: " ++ e)) := by
  refine ⟨fun msg => rfl, fun r h => ?_, fun r h304 hrange => ?_, fun r e h1 h2 hb => ?_⟩
  · simp [fetch_feed_items, h]
  · have : r.status < 200 ∨ 300 ≤ r.status := hrange
    simp [fetch_feed_items, h304, this]
  · have hne : r.status ≠ 304 := by omega
    have hrange : ¬ (r.status < 200 ∨ 300 ≤ r.status) := by omega
    simp [fetch_feed_items, hne, hrange, hb]

/-- C3 witness: the four degradation branches at a concrete store state
and concrete responses. -/
theorem fetch_feed_items_degrades_witness :
    fetch_feed_items stateWithMeta sampleFeed (.netError "boom") 9 =
      (stateWithMeta, read_items stateWithMeta sampleFeed 100,
        "Network error, showing cached items: boom") ∧
    fetch_feed_items stateWithMeta sampleFeed (.ok resp304) 9 =
      (stateWithMeta, read_items stateWithMeta sampleFeed 100,
        "Not modified (304), loaded from cache.") ∧
    fetch_feed_items stateWithMeta sampleFeed (.ok resp500) 9 =
      (stateWithMeta, read_items stateWithMeta sampleFeed 100,
        "HTTP " ++ toString resp500.status ++ ", showing cached items.") ∧
    fetch_feed_items stateWithMeta sampleFeed (.ok respMalformed) 9 =
      (stateWithMeta, read_items stateWithMeta sampleFeed 100,
        "Failed to parse feed XML, showing cached items: syntax error: line 1, column 0") :=
  ⟨(fetch_feed_items_degrades stateWithMeta sampleFeed 9).1 "boom",
   (fetch_feed_items_degrades stateWithMeta sampleFeed 9).2.1 resp304 rfl,
   (fetch_feed_items_degrades stateWithMeta sampleFeed 9).2.2.1 resp500
     (by decide) (by decide),
   (fetch_feed_items_degrades stateWithMeta sampleFeed 9).2.2.2 respMalformed
     "syntax error: line 1, column 0" (by decide) (by decide) rfl⟩

/-! ## Helper lemmas: feed-meta upsert and header lookup -/

theorem pyOrOpt_self (x : Option String) : pyOrOpt x x = x := by
  unfold pyOrOpt; split <;> rfl

theorem headerGet_case_insensitive (hs : List (String × String)) :
    headerGet hs "ETag" = headerGet hs "etag" ∧
    headerGet hs "Last-Modified" = headerGet hs "last-modified" := by
  have h1 : strLower "ETag" = strLower "etag" := by decide
  have h2 : strLower "Last-Modified" = strLower "last-modified" := by decide
  constructor <;> simp only [headerGet, h1, h2]

theorem get_feed_meta_upsert (st : CacheState) (fid url : String)
    (etag lm : Option String) (now : Nat) :
    get_feed_meta (upsert_feed_meta st fid url etag lm now) fid = (etag, lm) := by
  unfold upsert_feed_meta get_feed_meta
  by_cases hany : st.feeds.any fun r => r.feed_id = fid
  · simp only [hany, if_true]
    have : ∀ l : List FeedRow,
        (l.map fun r => if r.feed_id = fid then
            ({ feed_id := fid, url := url, etag := etag, last_modified := lm
               updated_at := now } : FeedRow) else r).find?
          (fun r => decide (r.feed_id = fid)) =
          if l.any (fun r => r.feed_id = fid) then
            some { feed_id := fid, url := url, etag := etag, last_modified := lm
                   updated_at := now } else none := by
      intro l
      induction l with
      | nil => rfl
      | cons r l ih =>
        by_cases hr : r.feed_id = fid
        · simp [hr, List.find?_cons]
        · simp [hr, List.find?_cons, ih]
    rw [this st.feeds]
    simp [hany]
  · simp only [hany, if_false]
    have hnone : st.feeds.find? (fun r => decide (r.feed_id = fid)) = Option.none := by
      rw [List.find?_eq_none]
      intro r hr
      simp only [List.any_eq_true, decide_eq_true_eq] at hany
      simp only [decide_eq_true_eq]
      exact fun h => hany ⟨r, hr, h⟩
    simp [List.find?_append, hnone]

/-- Shared shape of `fetch_feed_items`'s success branch: with a 2xx
status and a parseable body, the call is the upsert-items /
upsert-meta / re-read pipeline. -/
theorem fetch_success_shape (st : CacheState) (feed : FeedConfig)
    (r : HttpResponse) (root : XmlElem) (now : Nat)
    (h200 : 200 ≤ r.status) (h300 : r.status < 300) (hbody : r.body = .ok root) :
    fetch_feed_items st feed (.ok r) now =
      (upsert_feed_meta (upsert_items st feed ((parse_feed_xml root).take 200) now).1
         feed.id feed.url (headerGet r.headers "etag") (headerGet r.headers "last-modified") now,
       read_items (upsert_feed_meta
         (upsert_items st feed ((parse_feed_xml root).take 200) now).1
         feed.id feed.url (headerGet r.headers "etag") (headerGet r.headers "last-modified") now)
         feed 100,
       "Updated. New items: " ++
         toString (upsert_items st feed ((parse_feed_xml root).take 200) now).2 ++ ".") := by
  have h304 : r.status ≠ 304 := by omega
  have hrange : ¬ (r.status < 200 ∨ 300 ≤ r.status) := by omega
  simp only [fetch_feed_items, h304, hrange, if_false, hbody,
    (headerGet_case_insensitive r.headers).1, (headerGet_case_insensitive r.headers).2,
    pyOrOpt_self]

/-! ## C4: success path of the fetch-reconcile pipeline -/

/-- C4: on a 2xx, parseable response `fetch_feed_items` upserts at most
the first 200 parsed entries, then stores the response's
`ETag`/`Last-Modified` (case-insensitive header lookup) as the feed's
conditional metadata, then re-reads the items from the store — the
returned item list is exactly `read_items` of the final state — and the
status message reports the count the upsert actually inserted. -/
theorem fetch_feed_items_success (st : CacheState) (feed : FeedConfig)
    (r : HttpResponse) (root : XmlElem) (now : Nat)
    (h200 : 200 ≤ r.status) (h300 : r.status < 300) (hbody : r.body = .ok root) :
    fetch_feed_items st feed (.ok r) now =
      (upsert_feed_meta (upsert_items st feed ((parse_feed_xml root).take 200) now).1
         feed.id feed.url (headerGet r.headers "etag") (headerGet r.headers "last-modified") now,
       read_items (upsert_feed_meta
         (upsert_items st feed ((parse_feed_xml root).take 200) now).1
         feed.id feed.url (headerGet r.headers "etag") (headerGet r.headers "last-modified") now)
         feed 100,
       "Updated. New items: " ++
         toString (upsert_items st feed ((parse_feed_xml root).take 200) now).2 ++ ".") ∧
    ((parse_feed_xml root).take 200).length ≤ 200 ∧
    get_feed_meta (fetch_feed_items st feed (.ok r) now).1 feed.id =
      (headerGet r.headers "ETag", headerGet r.headers "Last-Modified") ∧
    (fetch_feed_items st feed (.ok r) now).2.1 =
      read_items (fetch_feed_items st feed (.ok r) now).1 feed 100 := by
  have heq := fetch_success_shape st feed r root now h200 h300 hbody
  refine ⟨heq, by simp, ?_, by rw [heq]⟩
  rw [heq, (headerGet_case_insensitive r.headers).1, (headerGet_case_insensitive r.headers).2]
  exact get_feed_meta_upsert _ _ _ _ _ _

/-- C4 witness: the success pipeline at a concrete RSS response whose
headers carry an ETag and Last-Modified. -/
theorem fetch_feed_items_success_witness :
    fetch_feed_items emptyState sampleFeed (.ok respOk) 9 =
      (upsert_feed_meta
         (upsert_items emptyState sampleFeed ((parse_feed_xml rssTree).take 200) 9).1
         sampleFeed.id sampleFeed.url (headerGet respOk.headers "etag")
         (headerGet respOk.headers "last-modified") 9,
       read_items (upsert_feed_meta
         (upsert_items emptyState sampleFeed ((parse_feed_xml rssTree).take 200) 9).1
         sampleFeed.id sampleFeed.url (headerGet respOk.headers "etag")
         (headerGet respOk.headers "last-modified") 9) sampleFeed 100,
       "Updated. New items: " ++
         toString (upsert_items emptyState sampleFeed
           ((parse_feed_xml rssTree).take 200) 9).2 ++ ".") ∧
    ((parse_feed_xml rssTree).take 200).length ≤ 200 ∧
    get_feed_meta (fetch_feed_items emptyState sampleFeed (.ok respOk) 9).1 sampleFeed.id =
      (headerGet respOk.headers "ETag", headerGet respOk.headers "Last-Modified") ∧
    (fetch_feed_items emptyState sampleFeed (.ok respOk) 9).2.1 =
      read_items (fetch_feed_items emptyState sampleFeed (.ok respOk) 9).1 sampleFeed 100 :=
  fetch_feed_items_success emptyState sampleFeed respOk rssTree 9
    (by decide) (by decide) rfl

/-! ## C5: conditional-GET round trip -/

/-- C5: the request headers of the next fetch carry `If-None-Match`
(resp. `If-Modified-Since`) exactly when the stored etag (resp.
last-modified) is a non-empty value, with that value; an absent stored
value omits the header; and after a successful fetch whose response
carried `ETag: abc`, the next request carries `If-None-Match: abc`. -/
theorem conditional_get_round_trip (st : CacheState) (feed : FeedConfig) (now : Nat) :
    (∀ t, t ≠ "" → (get_feed_meta st feed.id).1 = some t →
      ("If-None-Match", t) ∈ fetch_request_headers st feed) ∧
    (∀ t, t ≠ "" → (get_feed_meta st feed.id).2 = some t →
      ("If-Modified-Since", t) ∈ fetch_request_headers st feed) ∧
    ((get_feed_meta st feed.id).1 = Option.none →
      ∀ v, ("If-None-Match", v) ∉ fetch_request_headers st feed) ∧
    ((get_feed_meta st feed.id).2 = Option.none →
      ∀ v, ("If-Modified-Since", v) ∉ fetch_request_headers st feed) ∧
    (∀ (r : HttpResponse) (root : XmlElem), 200 ≤ r.status → r.status < 300 →
      r.body = .ok root → headerGet r.headers "etag" = some "abc" →
      ("If-None-Match", "abc") ∈
        fetch_request_headers (fetch_feed_items st feed (.ok r) now).1 feed) := by
  rcases hm : get_feed_meta st feed.id with ⟨e, l⟩
  refine ⟨?_, ?_, ?_, ?_, ?_⟩
  · intro t ht he
    simp only at he
    simp [fetch_request_headers, hm, request_headers, he, optTruthy, ht]
  · intro t ht hl
    simp only at hl
    simp [fetch_request_headers, hm, request_headers, hl, optTruthy, ht]
  · intro he v
    simp only at he
    subst he
    simp [fetch_request_headers, hm, request_headers, optTruthy]
  · intro hl v
    simp only at hl
    subst hl
    simp [fetch_request_headers, hm, request_headers, optTruthy]
  · intro r root h200 h300 hbody hetag
    rw [fetch_success_shape st feed r root now h200 h300 hbody]
    dsimp only
    rw [hetag]
    have hmeta := get_feed_meta_upsert
      (upsert_items st feed ((parse_feed_xml root).take 200) now).1 feed.id feed.url
      (some "abc") (headerGet r.headers "last-modified") now
    simp [fetch_request_headers, hmeta, request_headers, optTruthy]

/-- C5 witness: the stored-etag and stored-last-modified cases at a
concrete state, the omitted-header cases at the empty state, and the
round trip through a successful fetch whose response stored
`etag="abc"`. -/
theorem conditional_get_round_trip_witness :
    ("If-None-Match", "abc") ∈ fetch_request_headers stateWithMeta sampleFeed ∧
    ("If-Modified-Since", "Mon, 01 Jan 2024 00:00:00 GMT") ∈
      fetch_request_headers stateWithMeta sampleFeed ∧
    (∀ v, ("If-None-Match", v) ∉ fetch_request_headers emptyState sampleFeed) ∧
    (∀ v, ("If-Modified-Since", v) ∉ fetch_request_headers emptyState sampleFeed) ∧
    ("If-None-Match", "abc") ∈
      fetch_request_headers (fetch_feed_items emptyState sampleFeed (.ok respOk) 9).1
        sampleFeed :=
  ⟨(conditional_get_round_trip stateWithMeta sampleFeed 9).1 "abc" (by decide) rfl,
   (conditional_get_round_trip stateWithMeta sampleFeed 9).2.1
     "Mon, 01 Jan 2024 00:00:00 GMT" (by decide) rfl,
   (conditional_get_round_trip emptyState sampleFeed 9).2.2.1 rfl,
   (conditional_get_round_trip emptyState sampleFeed 9).2.2.2.1 rfl,
   (conditional_get_round_trip emptyState sampleFeed 9).2.2.2.2 respOk rssTree
     (by decide) (by decide) rfl (by decide)⟩

/-! ## C7: best-effort config loading -/

theorem parse_feed_list_append (xs ys : List PyVal) :
    parse_feed_list (xs ++ ys) = parse_feed_list xs ++ parse_feed_list ys := by
  induction xs with
  | nil => rfl
  | cons f fs ih =>
    simp only [List.cons_append, parse_feed_list]
    cases extract_feed f with
    | error e => simpa using ih
    | ok o => cases o <;> simp [ih]

/-- C7: a feeds-table entry whose field extraction raises is silently
skipped — dropping it from the document does not change the loaded
subscriptions — and a document whose `feeds` value is a list always
loads without error, yielding the extracted configs of the remaining
entries (filtered to the enabled ones). -/
theorem parse_feed_toml_skips_malformed (pre post : List PyVal) (bad : PyVal)
    (hbad : extract_feed bad = .error ()) :
    parse_feed_toml [("feeds", .list (pre ++ bad :: post))] =
      parse_feed_toml [("feeds", .list (pre ++ post))] ∧
    parse_feed_toml [("feeds", .list (pre ++ bad :: post))] =
      .ok ((parse_feed_list (pre ++ post)).filter (·.enabled)) := by
  have hlist : parse_feed_list (pre ++ bad :: post) = parse_feed_list (pre ++ post) := by
    rw [show pre ++ bad :: post = pre ++ [bad] ++ post by simp]
    rw [parse_feed_list_append, parse_feed_list_append, parse_feed_list_append]
    simp [parse_feed_list, hbad]
  constructor <;>
    simp [parse_feed_toml, pyIter, hlist, Bind.bind, Except.bind, pure, Except.pure]

/-- C7 witness: a document with three valid feed tables and one table
missing `url` loads exactly the three valid subscriptions, no error. -/
theorem parse_feed_toml_skips_malformed_witness :
    parse_feed_toml [("feeds", .list
        ([validFeedTable "https://a.example/f", validFeedTable "https://b.example/f"] ++
          badFeedTable :: [validFeedTable "https://c.example/f"]))] =
      parse_feed_toml [("feeds", .list
        ([validFeedTable "https://a.example/f", validFeedTable "https://b.example/f"] ++
          [validFeedTable "https://c.example/f"]))] ∧
    parse_feed_toml [("feeds", .list
        ([validFeedTable "https://a.example/f", validFeedTable "https://b.example/f"] ++
          badFeedTable :: [validFeedTable "https://c.example/f"]))] =
      .ok ((parse_feed_list
        ([validFeedTable "https://a.example/f", validFeedTable "https://b.example/f"] ++
          [validFeedTable "https://c.example/f"])).filter (·.enabled)) :=
  parse_feed_toml_skips_malformed
    [validFeedTable "https://a.example/f", validFeedTable "https://b.example/f"]
    [validFeedTable "https://c.example/f"] badFeedTable rfl

/-! ## C8: total, normalizing HTML-title stripping -/

/-- C8: `strip_html` is a total function (the source's `try`/`except`
guarantees it never raises; the embedding is total by construction).
For input without angle brackets it whitespace-collapses the (stripped)
input; otherwise it extracts the HTML text nodes, joins them with single
spaces, and whitespace-collapses; and the source text
`"<b>Hello</b>&nbsp;World"` normalizes to `"Hello World"`. -/
theorem strip_html_normalizes (s : String) :
    (pyStrip s = "" → strip_html s = "") ∧
    (pyStrip s ≠ "" → ¬ (pyStrip s).data.contains '<' →
      ¬ (pyStrip s).data.contains '>' →
      strip_html s = wsCollapse (pyStrip s)) ∧
    (((pyStrip s).data.contains '<' ∨ (pyStrip s).data.contains '>') →
      strip_html s =
        wsCollapse (extractorText (htmlDataChunks (pyStrip s).data))) ∧
    strip_html "<b>Hello</b>&nbsp;World" = "Hello World" := by
  refine ⟨fun h => ?_, fun h h1 h2 => ?_, fun h => ?_, by decide⟩
  · simp [strip_html, h]
  · simp only [strip_html]
    rw [if_neg h, if_pos ⟨h1, h2⟩]
  · have hne : pyStrip s ≠ "" := by
      intro h0
      rw [h0] at h
      simp at h
    have : ¬ (¬ (pyStrip s).data.contains '<' ∧ ¬ (pyStrip s).data.contains '>') := by
      rcases h with h | h
      · intro hc; exact absurd h (by simpa using hc.1)
      · intro hc; exact absurd h (by simpa using hc.2)
    simp only [strip_html, if_neg hne, if_neg this]

/-- C8 witness: the three branches at concrete inputs — an all-blank
string, a bracket-free title, a tagged title — plus the `&nbsp;`
normalization example. -/
theorem strip_html_normalizes_witness :
    strip_html "   " = "" ∧
    strip_html "Hello   World" = wsCollapse (pyStrip "Hello   World") ∧
    strip_html "A<b>B</b>C" =
      wsCollapse (extractorText (htmlDataChunks (pyStrip "A<b>B</b>C").data)) ∧
    strip_html "<b>Hello</b>&nbsp;World" = "Hello World" :=
  ⟨(strip_html_normalizes "   ").1 (by decide),
   (strip_html_normalizes "Hello   World").2.1 (by decide) (by decide) (by decide),
   (strip_html_normalizes "A<b>B</b>C").2.2.1 (by decide),
   (strip_html_normalizes "x").2.2.2⟩

/-! ## C10: duplicate URLs collapse to one derived feed id -/

theorem sha1Digest_length (msg : List Nat) : (sha1Digest msg).length = 20 := by
  unfold sha1Digest
  set x := (sha1Pad msg).foldl sha1Feed (sha1Init, []) with hx
  obtain ⟨⟨h0, h1, h2, h3, h4⟩, buf⟩ := x
  simp [wordBytes]

theorem bytesToHex_length (bs : List Nat) : (bytesToHex bs).length = 2 * bs.length := by
  induction bs with
  | nil => rfl
  | cons b bs ih => simp [bytesToHex] at ih ⊢; omega

theorem hexDigit_isHex : ∀ n < 16, isHexChar (hexDigit n) = true := by decide

theorem bytesToHex_hex (bs : List Nat) : ∀ c ∈ bytesToHex bs, isHexChar c = true := by
  intro c hc
  simp only [bytesToHex, List.mem_flatMap, List.mem_cons, List.not_mem_nil, or_false] at hc
  obtain ⟨b, _, h | h⟩ := hc
  · rw [h]; exact hexDigit_isHex _ (Nat.mod_lt _ (by omega))
  · rw [h]; exact hexDigit_isHex _ (Nat.mod_lt _ (by omega))

theorem sha1Hex_length (s : String) : (sha1Hex s).length = 40 := by
  show (bytesToHex (sha1Digest (utf8Bytes s))).length = 40
  rw [bytesToHex_length, sha1Digest_length]

theorem derive_feed_id_length (u : String) : (derive_feed_id u).length = 12 := by
  show ((sha1Hex u).data.take 12).length = 12
  rw [List.length_take]
  have : (sha1Hex u).data.length = 40 := sha1Hex_length u
  omega

theorem derive_feed_id_hex (u : String) :
    ∀ c ∈ (derive_feed_id u).data, isHexChar c = true := fun c hc =>
  bytesToHex_hex _ c (List.take_subset 12 _ hc)

theorem extract_feed_url_only (url : String) (h : pyStrip url ≠ "") :
    extract_feed (.dict [("url", .str url)]) =
      .ok (some { id := derive_feed_id (pyStrip url)
                  title := derive_feed_id (pyStrip url)
                  url := pyStrip url, enabled := true, tags := [] }) := by
  have hempty : pyStrip "" = "" := rfl
  simp [extract_feed, pySubscript, pyGet, pyIter, pyStr, pyOr, pyTruthy, pyOrStr, h,
    hempty, Bind.bind, Except.bind, pure, Except.pure]

/-- C10: the loader does not enforce subscription-id uniqueness — a
document with two enabled feed tables holding the same `url` and no
explicit `id` yields two subscription records, both carrying the
identical derived feed id (12 lowercase hexadecimal characters), so both
address the same cache rows. -/
theorem duplicate_url_same_feed_id (url : String) (h : pyStrip url ≠ "") :
    parse_feed_toml
        [("feeds", .list [.dict [("url", .str url)], .dict [("url", .str url)]])] =
      .ok [{ id := derive_feed_id (pyStrip url), title := derive_feed_id (pyStrip url)
             url := pyStrip url, enabled := true, tags := [] },
           { id := derive_feed_id (pyStrip url), title := derive_feed_id (pyStrip url)
             url := pyStrip url, enabled := true, tags := [] }] ∧
    (derive_feed_id (pyStrip url)).length = 12 ∧
    ∀ c ∈ (derive_feed_id (pyStrip url)).data, isHexChar c = true := by
  refine ⟨?_, derive_feed_id_length _, derive_feed_id_hex _⟩
  simp [parse_feed_toml, pyIter, parse_feed_list, extract_feed_url_only url h,
    Bind.bind, Except.bind, pure, Except.pure]

/-- C10 witness: two tables with the same concrete URL produce the same
12-hex-character derived id. -/
theorem duplicate_url_same_feed_id_witness :
    parse_feed_toml
        [("feeds", .list [.dict [("url", .str "https://example.com/feed")],
                          .dict [("url", .str "https://example.com/feed")]])] =
      .ok [{ id := derive_feed_id (pyStrip "https://example.com/feed")
             title := derive_feed_id (pyStrip "https://example.com/feed")
             url := pyStrip "https://example.com/feed", enabled := true, tags := [] },
           { id := derive_feed_id (pyStrip "https://example.com/feed")
             title := derive_feed_id (pyStrip "https://example.com/feed")
             url := pyStrip "https://example.com/feed", enabled := true, tags := [] }] ∧
    (derive_feed_id (pyStrip "https://example.com/feed")).length = 12 ∧
    ∀ c ∈ (derive_feed_id (pyStrip "https://example.com/feed")).data,
      isHexChar c = true :=
  duplicate_url_same_feed_id "https://example.com/feed" (by decide)

end RssReader
